import Mathlib

/- Formal model of the runtime-polymorphic string representation and dispatch
   layer of RapidFuzz's Python binding core, shallowly embedded from
   `src/cpp_common.hpp`, `src/cpp_utils.hpp` and `src/cpp_scorer.hpp`.

   Modelling conventions:
   * machine integers (`size_t`, `uint8_t` tags) are `Nat`, with wrap-around
     made explicit as `% 2 ^ 64` where the C++ arithmetic can overflow;
   * raw memory is a map from allocation addresses to the list of bytes
     stored there, together with the list of live allocations and a counter
     supplying fresh addresses for `malloc`;
   * a `T*` buffer viewed at element width `w` is decoded from its bytes in
     little-endian order;
   * C++ exceptions become explicit error constructors; falling off the end
     of a value-returning function, which has no defined behaviour in C++,
     is a dedicated `undefinedBehavior` outcome. -/

/-- The width-tagged buffer `RapidFuzzString` of `cpp_common.hpp`: a `kind`
tag (a `uint8_t`), the flag saying whether `data` is dynamically allocated,
the `data` pointer (an address), the element count `length`, and the opaque
`context` pointer (`0` models `nullptr`). -/
structure RapidFuzzString where
  kind : Nat
  allocated : Bool
  data : Nat
  length : Nat
  context : Nat

/- The `RapidfuzzTypes` enumeration values, in the order their enumerators
   are generated by `LIST_OF_CASES` (so UINT8 = 0, ..., INT64 = 4). -/

def RAPIDFUZZ_UINT8 : Nat := 0

def RAPIDFUZZ_UINT16 : Nat := 1

def RAPIDFUZZ_UINT32 : Nat := 2

def RAPIDFUZZ_UINT64 : Nat := 3

def RAPIDFUZZ_INT64 : Nat := 4

/-- The byte width `sizeof(TYPE)` of the element type that `LIST_OF_CASES`
associates with each width tag (`uint8_t`, `uint16_t`, `uint32_t`,
`uint64_t`, `int64_t`). -/
def widthOfKind (k : Nat) : Nat :=
  if k = RAPIDFUZZ_UINT8 then 1
  else if k = RAPIDFUZZ_UINT16 then 2
  else if k = RAPIDFUZZ_UINT32 then 4
  else if k = RAPIDFUZZ_UINT64 then 8
  else if k = RAPIDFUZZ_INT64 then 8
  else 0

/-- The heap: byte contents of every address, the list of currently live
allocations, and a counter from which `malloc` draws fresh addresses. -/
structure Mem where
  contents : Nat → List Nat
  live : List Nat
  nextFree : Nat

/-- Storing a byte list at an address (a raw memory write). -/
def Mem.write (m : Mem) (a : Nat) (bs : List Nat) : Mem :=
  { m with contents := fun x => if x = a then bs else m.contents x }

/-- Little-endian byte decomposition of one element of byte width `w`. -/
def encodeElem : Nat → Nat → List Nat
  | 0, _ => []
  | w + 1, v => v % 256 :: encodeElem w (v / 256)

/-- Little-endian byte decomposition of a whole element sequence. -/
def encode (w : Nat) : List Nat → List Nat
  | [] => []
  | v :: vs => encodeElem w v ++ encode w vs

/-- Recomposition of one element from its little-endian bytes. -/
def decodeElem (bs : List Nat) : Nat :=
  bs.foldr (fun b acc => b + 256 * acc) 0

/-- Grouping a byte list into elements of byte width `w`. -/
def decode (w : Nat) (bs : List Nat) : List Nat :=
  if h : w = 0 ∨ bs = [] then []
  else decodeElem (bs.take w) :: decode w (bs.drop w)
termination_by bs.length
decreasing_by
  push_neg at h
  have hb : 0 < bs.length := List.length_pos.mpr h.2
  have hw : 0 < w := Nat.pos_of_ne_zero h.1
  simp only [List.length_drop]
  omega

/-- The typed view `to_string_view<T>` of `cpp_common.hpp`: reinterprets the
buffer's raw bytes as `s.length` elements of byte width `w`, i.e.
`rapidfuzz::basic_string_view<T>((T*)s.data, s.length)`. -/
def to_string_view (w : Nat) (m : Mem) (s : RapidFuzzString) : List Nat :=
  (decode w (m.contents s.data)).take s.length

/-- A host (CPython) string object, reduced to the three introspection
primitives the adapter uses: `PyUnicode_KIND`, `PyUnicode_DATA` and
`PyUnicode_GET_LENGTH`. -/
structure PyUnicodeObject where
  kind : Nat
  data : Nat
  length : Nat

def PyUnicode_1BYTE_KIND : Nat := 1

def PyUnicode_2BYTE_KIND : Nat := 2

def PyUnicode_4BYTE_KIND : Nat := 4

/-- The host-string adapter `convert_string` of `cpp_common.hpp`: maps the
host representation width to a width tag (1-byte to UINT8, 2-byte to UINT16,
anything else to UINT32) and wraps the host storage without copying —
`allocated` is `0` and `data`/`length` are the host string's own. -/
def convert_string (py : PyUnicodeObject) : RapidFuzzString :=
  { kind :=
      if py.kind = PyUnicode_1BYTE_KIND then RAPIDFUZZ_UINT8
      else if py.kind = PyUnicode_2BYTE_KIND then RAPIDFUZZ_UINT16
      else RAPIDFUZZ_UINT32,
    allocated := false,
    data := py.data,
    length := py.length,
    context := 0 }

/-- Result marshaling `dist_to_long` of `cpp_common.hpp`: the distance
sentinel `(std::size_t)-1` (here `2 ^ 64 - 1`, modelling a 64-bit `size_t`)
becomes the Python integer `-1`; every other distance is passed through. -/
def dist_to_long (dist : Nat) : Int :=
  if dist = 2 ^ 64 - 1 then -1 else (dist : Int)

/-- The deallocator `process_dealloc_no_context` of `cpp_utils.hpp`: frees
the buffer only when `allocated` is set, and then clears the data pointer,
the ownership flag, the length and the context. -/
def process_dealloc_no_context (m : Mem) (s : RapidFuzzString) :
    Mem × RapidFuzzString :=
  if s.allocated then
    ({ m with live := m.live.erase s.data },
      { kind := s.kind, allocated := false, data := 0, length := 0, context := 0 })
  else (m, s)

/-- The RAII wrapper `ProcStringWrapper` of `cpp_common.hpp`. Its `dealloc`
member is a function pointer; the only deallocator defined in the sources is
`process_dealloc_no_context`, so the pointer is modelled as the flag saying
whether it is set (`nullptr` = `false`). -/
structure ProcStringWrapper where
  str : RapidFuzzString
  dealloc : Bool

/-- The move constructor `ProcStringWrapper(ProcStringWrapper&&)`: copies
both members from the source, then nulls the source's `dealloc`. Returns the
constructed wrapper and the moved-from source. -/
def ProcStringWrapper.moveConstruct (other : ProcStringWrapper) :
    ProcStringWrapper × ProcStringWrapper :=
  (⟨other.str, other.dealloc⟩, ⟨other.str, false⟩)

/-- The move assignment `ProcStringWrapper::operator=(ProcStringWrapper&&)`.
`sameObject` models the `&other != this` address check. Otherwise: if the
destination's `dealloc` is set it is invoked on the destination's string,
then `str = other.str`, then `other.dealloc = nullptr`. Note that the
source's code never assigns `other.dealloc` to `this->dealloc`. Returns the
heap, the assigned-to wrapper and the moved-from source. -/
def ProcStringWrapper.moveAssign (m : Mem) (self other : ProcStringWrapper)
    (sameObject : Bool) : Mem × ProcStringWrapper × ProcStringWrapper :=
  if sameObject then (m, self, other)
  else
    let m1 := if self.dealloc then (process_dealloc_no_context m self.str).1 else m
    (m1, ⟨other.str, self.dealloc⟩, ⟨other.str, false⟩)

/-- The destructor `~ProcStringWrapper()`: invokes `dealloc` on `str` when
the pointer is set, otherwise does nothing. -/
def ProcStringWrapper.destroy (m : Mem) (w : ProcStringWrapper) : Mem :=
  if w.dealloc then (process_dealloc_no_context m w.str).1 else m

/- The canonicalization transform. `default_process_impl<CharT>` in
   `cpp_utils.hpp` delegates the in-place transform to
   `utils::default_process(str, length)`, which lives in the bundled
   rapidfuzz-cpp library and is not part of these sources; it is modelled
   from the spec below. -/

/-- Modelled from the spec: a whitespace-class character (ASCII space and
the control whitespace characters), used by the fold/trim steps of the
canonicalization transform that `utils::default_process` implements. -/
def isWs (c : Nat) : Bool :=
  (c == 32) || (decide (9 ≤ c) && decide (c ≤ 13))

/-- Modelled from the spec: the single separator that a run of consecutive
whitespace-class characters is folded to. -/
def separator : Nat := 32

/-- Modelled from the spec: locale-agnostic case folding of one code unit
(ASCII uppercase to lowercase; everything else unchanged). -/
def caseFold (c : Nat) : Nat :=
  if 65 ≤ c ∧ c ≤ 90 then c + 32 else c

/-- Modelled from the spec: fold every run of consecutive whitespace-class
characters to the single `separator`. -/
def squeeze : List Nat → List Nat
  | [] => []
  | [c] => if isWs c then [separator] else [c]
  | c :: d :: rest =>
    if isWs c && isWs d then squeeze (d :: rest)
    else if isWs c then separator :: squeeze (d :: rest)
    else c :: squeeze (d :: rest)

/-- Modelled from the spec: drop trailing whitespace-class characters. -/
def trimRight : List Nat → List Nat
  | [] => []
  | c :: rest =>
    if trimRight rest = [] then (if isWs c then [] else [c])
    else c :: trimRight rest

/-- Modelled from the spec: drop leading and trailing whitespace-class
characters. -/
def trim (l : List Nat) : List Nat :=
  trimRight (l.dropWhile isWs)

/-- Modelled from the spec: the canonicalization transform performed by the
external `utils::default_process` — fold consecutive whitespace-class
characters to single separators, trim, then case-fold. Returns the
transformed sequence (whose length is the new buffer length). -/
def default_process_list (s : List Nat) : List Nat :=
  (trim (squeeze s)).map caseFold

/-- Errors of the normalization path: `std::bad_alloc` from a failed
`malloc`, and the `std::logic_error` thrown by the dispatcher's default
case. -/
inductive ProcError where
  | badAlloc
  | logicFault

/-- The byte count requested from `malloc` by `default_process_impl`:
`sentence.length * sizeof(CharT)` computed in 64-bit `size_t` arithmetic,
which wraps on overflow. -/
def allocRequestBytes (length elemSize : Nat) : Nat :=
  length * elemSize % 2 ^ 64

/-- The Normalizer `default_process_impl<CharT>` of `cpp_utils.hpp`,
with `elemSize = sizeof(CharT)`. `mallocFail sz` is the allocator oracle:
whether `malloc(sz)` returns `NULL`. When the input buffer is not owned, a
new buffer is allocated (throwing `bad_alloc` on allocator failure) and the
source elements are copied into it; when the input is already owned, its
buffer is reused in place with no new allocation. The in-place
`utils::default_process` then rewrites the buffer with the transformed
elements (bytes past the new length keep their previous values) and the
returned buffer records the transformed length, the input's kind, and
`allocated = true`. -/
def default_process_impl (elemSize : Nat) (mallocFail : Nat → Bool) (m : Mem)
    (sentence : RapidFuzzString) : Except ProcError (Mem × RapidFuzzString) :=
  if !sentence.allocated then
    if mallocFail (allocRequestBytes sentence.length elemSize) then
      .error .badAlloc
    else
      let a := m.nextFree
      let srcView := (decode elemSize (m.contents sentence.data)).take sentence.length
      let copyBytes := encode elemSize srcView
      let processed := default_process_list srcView
      let procBytes := encode elemSize processed
      let m1 : Mem :=
        { contents := fun x =>
            if x = a then procBytes ++ copyBytes.drop procBytes.length
            else m.contents x,
          live := a :: m.live,
          nextFree := m.nextFree + 1 }
      .ok (m1,
        { kind := sentence.kind, allocated := true, data := a,
          length := processed.length, context := 0 })
  else
    let srcView := (decode elemSize (m.contents sentence.data)).take sentence.length
    let origBytes := m.contents sentence.data
    let processed := default_process_list srcView
    let procBytes := encode elemSize processed
    let m1 : Mem :=
      { contents := fun x =>
          if x = sentence.data then procBytes ++ origBytes.drop procBytes.length
          else m.contents x,
        live := m.live,
        nextFree := m.nextFree }
    .ok (m1,
      { kind := sentence.kind, allocated := true, data := sentence.data,
        length := processed.length, context := 0 })

/-- The dispatcher `default_process_func` of `cpp_utils.hpp`: switches on
the buffer's kind to pick the `CharT` instantiation, with a defaulted
`std::logic_error`. -/
def default_process_func (mallocFail : Nat → Bool) (m : Mem)
    (s : RapidFuzzString) : Except ProcError (Mem × RapidFuzzString) :=
  if s.kind = RAPIDFUZZ_UINT8 then default_process_impl 1 mallocFail m s
  else if s.kind = RAPIDFUZZ_UINT16 then default_process_impl 2 mallocFail m s
  else if s.kind = RAPIDFUZZ_UINT32 then default_process_impl 4 mallocFail m s
  else if s.kind = RAPIDFUZZ_UINT64 then default_process_impl 8 mallocFail m s
  else if s.kind = RAPIDFUZZ_INT64 then default_process_impl 8 mallocFail m s
  else .error .logicFault

/-- Outcome of a dispatched call: a value, the `std::logic_error` thrown by
a dispatcher's `default:` case, or the undefined behaviour of flowing off
the end of a value-returning `switch` that has no `default:` case. -/
inductive DispatchResult (R : Type) where
  | ok : R → DispatchResult R
  | logicError : DispatchResult R
  | undefinedBehavior : DispatchResult R

/-- The inner dispatch level generated by `RATIO_IMPL_INNER` (identically by
`DISTANCE_IMPL_INNER`), parameterized by the wrapped generic algorithm
`ratio_func` (a black box over two typed views and the trailing argument
pack). Each `X_ENUM` case returns
`RATIO_FUNC(s2, to_string_view<TYPE>(s1), args...)`; the `default:` case
throws `std::logic_error`. -/
def ratio_impl_inner {A R : Type} (ratio_func : List Nat → List Nat → A → R)
    (m : Mem) (s1 : RapidFuzzString) (s2 : List Nat) (args : A) :
    DispatchResult R :=
  if s1.kind = RAPIDFUZZ_UINT8 then .ok (ratio_func s2 (to_string_view 1 m s1) args)
  else if s1.kind = RAPIDFUZZ_UINT16 then .ok (ratio_func s2 (to_string_view 2 m s1) args)
  else if s1.kind = RAPIDFUZZ_UINT32 then .ok (ratio_func s2 (to_string_view 4 m s1) args)
  else if s1.kind = RAPIDFUZZ_UINT64 then .ok (ratio_func s2 (to_string_view 8 m s1) args)
  else if s1.kind = RAPIDFUZZ_INT64 then .ok (ratio_func s2 (to_string_view 8 m s1) args)
  else .logicError

/-- The outer dispatch level generated by `RATIO_IMPL` (identically by
`DISTANCE_IMPL`). Each `X_ENUM` case returns
`RATIO_impl_inner(s2, to_string_view<TYPE>(s1), args...)` — note the
deliberate argument swap, repeated by the inner level; the `default:` case
throws `std::logic_error`. -/
def ratio_impl {A R : Type} (ratio_func : List Nat → List Nat → A → R)
    (m : Mem) (s1 s2 : RapidFuzzString) (args : A) : DispatchResult R :=
  if s1.kind = RAPIDFUZZ_UINT8 then ratio_impl_inner ratio_func m s2 (to_string_view 1 m s1) args
  else if s1.kind = RAPIDFUZZ_UINT16 then ratio_impl_inner ratio_func m s2 (to_string_view 2 m s1) args
  else if s1.kind = RAPIDFUZZ_UINT32 then ratio_impl_inner ratio_func m s2 (to_string_view 4 m s1) args
  else if s1.kind = RAPIDFUZZ_UINT64 then ratio_impl_inner ratio_func m s2 (to_string_view 8 m s1) args
  else if s1.kind = RAPIDFUZZ_INT64 then ratio_impl_inner ratio_func m s2 (to_string_view 8 m s1) args
  else .logicError

/-- Modelled from the spec: `no_process<TYPE>`, referenced by the edit-ops
dispatch in `cpp_scorer.hpp` but defined outside these sources, is per the
spec's `view_as` operation the plain typed read-only view of the buffer,
like `to_string_view`. -/
def no_process (w : Nat) (m : Mem) (s : RapidFuzzString) : List Nat :=
  to_string_view w m s

/-- The inner edit-ops dispatch `levenshtein_editops_inner` of
`cpp_scorer.hpp`, parameterized by the wrapped `levenshtein_editops`
algorithm `g`. Its `switch` consists only of the `LIST_OF_CASES` cases
`return RATIO_FUNC(s2, no_process<TYPE>(s1));` — it has no `default:` case,
so for any other kind control flows off the end of a value-returning
function: undefined behaviour. -/
def levenshtein_editops_inner {R : Type} (g : List Nat → List Nat → R)
    (m : Mem) (s1 : RapidFuzzString) (s2 : List Nat) : DispatchResult R :=
  if s1.kind = RAPIDFUZZ_UINT8 then .ok (g s2 (no_process 1 m s1))
  else if s1.kind = RAPIDFUZZ_UINT16 then .ok (g s2 (no_process 2 m s1))
  else if s1.kind = RAPIDFUZZ_UINT32 then .ok (g s2 (no_process 4 m s1))
  else if s1.kind = RAPIDFUZZ_UINT64 then .ok (g s2 (no_process 8 m s1))
  else if s1.kind = RAPIDFUZZ_INT64 then .ok (g s2 (no_process 8 m s1))
  else .undefinedBehavior

/-- The outer edit-ops dispatch `cpp_levenshtein_editops` of
`cpp_scorer.hpp`. Like the inner level its `switch` has no `default:` case,
so an unsupported kind means control flows off the end of the function:
undefined behaviour rather than a thrown `std::logic_error`. -/
def cpp_levenshtein_editops {R : Type} (g : List Nat → List Nat → R)
    (m : Mem) (s1 s2 : RapidFuzzString) : DispatchResult R :=
  if s1.kind = RAPIDFUZZ_UINT8 then levenshtein_editops_inner g m s2 (no_process 1 m s1)
  else if s1.kind = RAPIDFUZZ_UINT16 then levenshtein_editops_inner g m s2 (no_process 2 m s1)
  else if s1.kind = RAPIDFUZZ_UINT32 then levenshtein_editops_inner g m s2 (no_process 4 m s1)
  else if s1.kind = RAPIDFUZZ_UINT64 then levenshtein_editops_inner g m s2 (no_process 8 m s1)
  else if s1.kind = RAPIDFUZZ_INT64 then levenshtein_editops_inner g m s2 (no_process 8 m s1)
  else .undefinedBehavior

/- Helper observers and concrete fixtures used by the theorems below. -/

/-- Whether an `Except` computation returned normally. -/
def exceptOk {E α : Type} : Except E α → Bool
  | .ok _ => true
  | .error _ => false

/-- The buffer returned by a normalization call (a dummy for the error
case). -/
def resStr (e : Except ProcError (Mem × RapidFuzzString)) : RapidFuzzString :=
  match e with
  | .ok (_, r) => r
  | .error _ => ⟨0, false, 0, 0, 0⟩

/-- The heap returned by a normalization call (a dummy for the error
case). -/
def resMem (e : Except ProcError (Mem × RapidFuzzString)) : Mem :=
  match e with
  | .ok (m, _) => m
  | .error _ => ⟨fun _ => [], [], 0⟩

/-- An empty heap. -/
def memEmpty : Mem := ⟨fun _ => [], [], 0⟩

/-- A heap holding the two bytes `[97, 98]` at the live address 5. -/
def memC5 : Mem := ⟨fun a => if a = 5 then [97, 98] else [], [5], 6⟩

/-- A heap with the narrow buffer bytes of the code points 97, 98, 99 at
address 10 and the 4-byte-wide encoding of the same code points at
address 20. -/
def memW : Mem :=
  ⟨fun a =>
    if a = 10 then [97, 98, 99]
    else if a = 20 then [97, 0, 0, 0, 98, 0, 0, 0, 99, 0, 0, 0]
    else [], [10, 20], 21⟩

/-- An owned (allocated) UINT8 buffer of length 2 at address 5. -/
def strOwned : RapidFuzzString := ⟨0, true, 5, 2, 0⟩

/-- A borrowed UINT32 buffer whose length makes
`length * sizeof(uint32_t)` overflow 64-bit `size_t`. -/
def strHuge : RapidFuzzString := ⟨2, false, 0, 2 ^ 62 + 1, 0⟩

/-- A borrowed UINT8 buffer of length 3 at address 10. -/
def strNarrow : RapidFuzzString := ⟨0, false, 10, 3, 0⟩

/-- A borrowed UINT32 buffer of length 3 at address 20. -/
def strWide : RapidFuzzString := ⟨2, false, 20, 3, 0⟩

/-- A buffer carrying the width tag 5, which is outside the five supported
tags. -/
def strBadKind : RapidFuzzString := ⟨5, false, 0, 0, 0⟩

/-- An empty borrowed UINT8 buffer. -/
def strEmptyU8 : RapidFuzzString := ⟨0, false, 0, 0, 0⟩

/-- An allocator that always satisfies the request. -/
def mallocNever : Nat → Bool := fun _ => false

/-- An allocator that cannot satisfy requests above 2^32 bytes. -/
def mallocCap : Nat → Bool := fun sz => decide (2 ^ 32 < sz)

/-- A default-constructed wrapper: zeroed string, `dealloc = nullptr`. -/
def wrapDefault : ProcStringWrapper := ⟨⟨0, false, 0, 0, 0⟩, false⟩

/-- A wrapper owning the allocation at address 7, with its deallocator
set. -/
def wrapOwner : ProcStringWrapper := ⟨⟨0, true, 7, 3, 0⟩, true⟩

/-- A heap where only address 7 is live. -/
def memLeak : Mem := ⟨fun _ => [], [7], 8⟩

/- Structural predicates about whitespace layout, used to prove that the
   canonicalization transform is idempotent. -/

/-- Every whitespace-class character in the list is the `separator`. -/
def allSep : List Nat → Bool
  | [] => true
  | c :: rest => (!isWs c || c == 32) && allSep rest

/-- No two adjacent characters are both whitespace-class. -/
def noAdj : List Nat → Bool
  | c :: d :: rest => (!(isWs c && isWs d)) && noAdj (d :: rest)
  | _ => true

/-- The first character, if any, is whitespace-class. -/
def headIsWs : List Nat → Bool
  | [] => false
  | c :: _ => isWs c

/-- The last character, if any, is not whitespace-class. -/
def lastNotWs : List Nat → Bool
  | [] => true
  | [c] => !isWs c
  | _ :: d :: rest => lastNotWs (d :: rest)

/- Lemmas about the canonicalization transform, culminating in its
   idempotence. -/

theorem caseFold_caseFold (c : Nat) : caseFold (caseFold c) = caseFold c := by
  simp only [caseFold]
  split_ifs <;> omega

theorem isWs_caseFold (c : Nat) : isWs (caseFold c) = isWs c := by
  simp only [caseFold, isWs]
  split_ifs with h
  · rw [Bool.eq_iff_iff]
    simp only [Bool.or_eq_true, Bool.and_eq_true, beq_iff_eq, decide_eq_true_eq]
    omega
  · rfl

theorem noAdj_cons (a : Nat) (l : List Nat) :
    noAdj (a :: l) = ((!isWs a || !headIsWs l) && noAdj l) := by
  cases l with
  | nil => simp [noAdj, headIsWs]
  | cons d rest => simp [noAdj, headIsWs, Bool.not_and]


theorem allSep_cons (a : Nat) (l : List Nat) :
    allSep (a :: l) = ((!isWs a || a == 32) && allSep l) := rfl

theorem allSep_squeeze : ∀ l : List Nat, allSep (squeeze l) = true
  | [] => rfl
  | [c] => by
    simp only [squeeze]
    split_ifs with h
    · decide
    · rw [Bool.not_eq_true] at h
      rw [allSep_cons, Bool.and_eq_true]
      exact ⟨by simp [h], rfl⟩
  | c :: d :: rest => by
    have ih := allSep_squeeze (d :: rest)
    simp only [squeeze]
    split_ifs with h1 h2
    · exact ih
    · rw [allSep_cons, Bool.and_eq_true]
      exact ⟨by decide, ih⟩
    · rw [Bool.not_eq_true] at h2
      rw [allSep_cons, Bool.and_eq_true]
      exact ⟨by simp [h2], ih⟩

theorem headIsWs_squeeze : ∀ l : List Nat, headIsWs (squeeze l) = headIsWs l
  | [] => rfl
  | [c] => by
    simp only [squeeze]
    split_ifs with h
    · simp only [headIsWs, h]
      decide
    · simp [headIsWs]
  | c :: d :: rest => by
    have ih := headIsWs_squeeze (d :: rest)
    simp only [squeeze]
    split_ifs with h1 h2
    · rw [ih]
      rw [Bool.and_eq_true] at h1
      simp [headIsWs, h1.1, h1.2]
    · simp only [headIsWs, h2]
      decide
    · simp [headIsWs]

theorem noAdj_squeeze : ∀ l : List Nat, noAdj (squeeze l) = true
  | [] => rfl
  | [c] => by
    simp only [squeeze]
    split_ifs <;> rfl
  | c :: d :: rest => by
    have ih := noAdj_squeeze (d :: rest)
    simp only [squeeze]
    split_ifs with h1 h2
    · exact ih
    · rw [noAdj_cons, headIsWs_squeeze, ih]
      have hd : isWs d = false := by
        rw [Bool.not_eq_true] at h1
        rw [h2] at h1
        simpa using h1
      simp [headIsWs, hd]
    · rw [noAdj_cons, headIsWs_squeeze, ih]
      rw [Bool.not_eq_true] at h2
      simp [h2]

theorem squeeze_id : ∀ l : List Nat, allSep l = true → noAdj l = true → squeeze l = l
  | [], _, _ => rfl
  | [c], hs, _ => by
    simp only [squeeze]
    split_ifs with h
    · rw [allSep_cons, Bool.and_eq_true, Bool.or_eq_true] at hs
      rcases hs.1 with hc | hc
      · rw [Bool.not_eq_true', h] at hc
        cases hc
      · rw [beq_iff_eq] at hc
        rw [separator, hc]
    · rfl
  | c :: d :: rest, hs, hn => by
    rw [allSep_cons, Bool.and_eq_true] at hs
    rw [noAdj_cons, Bool.and_eq_true] at hn
    have ih := squeeze_id (d :: rest) hs.2 hn.2
    simp only [squeeze]
    split_ifs with h1 h2
    · exfalso
      have hh := hn.1
      simp only [headIsWs] at hh
      rw [Bool.and_eq_true] at h1
      rw [h1.1, h1.2] at hh
      exact absurd hh (by decide)
    · rw [ih]
      have hc : c = 32 := by
        rw [Bool.or_eq_true] at hs
        rcases hs.1 with hc | hc
        · rw [Bool.not_eq_true', h2] at hc
          cases hc
        · exact beq_iff_eq.mp hc
      rw [separator, hc]
    · rw [ih]

theorem lastNotWs_cons (c : Nat) (l : List Nat) (h : l ≠ []) :
    lastNotWs (c :: l) = lastNotWs l := by
  cases l with
  | nil => exact absurd rfl h
  | cons d rest => rfl

theorem lastNotWs_trimRight : ∀ l : List Nat, lastNotWs (trimRight l) = true
  | [] => rfl
  | c :: rest => by
    have ih := lastNotWs_trimRight rest
    simp only [trimRight]
    split_ifs with h1 h2
    · rfl
    · rw [Bool.not_eq_true] at h2
      simp [lastNotWs, h2]
    · rw [lastNotWs_cons _ _ h1]
      exact ih

theorem allSep_trimRight : ∀ l : List Nat, allSep l = true → allSep (trimRight l) = true
  | [], _ => rfl
  | c :: rest, hs => by
    rw [allSep_cons, Bool.and_eq_true] at hs
    have ih := allSep_trimRight rest hs.2
    simp only [trimRight]
    split_ifs with h1 h2
    · rfl
    · rw [allSep_cons, Bool.and_eq_true]
      exact ⟨hs.1, rfl⟩
    · rw [allSep_cons, Bool.and_eq_true]
      exact ⟨hs.1, ih⟩

theorem headIsWs_trimRight_of_ne : ∀ l : List Nat, trimRight l ≠ [] →
    headIsWs (trimRight l) = headIsWs l
  | [], h => absurd rfl h
  | c :: rest, h => by
    simp only [trimRight] at h ⊢
    split_ifs at h ⊢ with h1 h2
    · exact absurd rfl h
    · rfl
    · rfl

theorem headIsWs_trimRight_false : ∀ l : List Nat, headIsWs l = false →
    headIsWs (trimRight l) = false
  | [], _ => rfl
  | c :: rest, h => by
    simp only [headIsWs] at h
    simp only [trimRight]
    split_ifs with h1 h2
    · rfl
    · simpa [headIsWs] using h
    · simpa [headIsWs] using h

theorem noAdj_trimRight : ∀ l : List Nat, noAdj l = true → noAdj (trimRight l) = true
  | [], _ => rfl
  | c :: rest, hn => by
    rw [noAdj_cons, Bool.and_eq_true] at hn
    have ih := noAdj_trimRight rest hn.2
    simp only [trimRight]
    split_ifs with h1 h2
    · rfl
    · rfl
    · rw [noAdj_cons, headIsWs_trimRight_of_ne rest h1, ih, Bool.and_true]
      exact hn.1

theorem headIsWs_dropWhile : ∀ l : List Nat, headIsWs (l.dropWhile isWs) = false
  | [] => rfl
  | c :: rest => by
    rw [List.dropWhile_cons]
    split_ifs with h
    · exact headIsWs_dropWhile rest
    · rw [Bool.not_eq_true] at h
      simpa [headIsWs] using h

theorem allSep_dropWhile : ∀ l : List Nat, allSep l = true →
    allSep (l.dropWhile isWs) = true
  | [], _ => rfl
  | c :: rest, hs => by
    rw [allSep_cons, Bool.and_eq_true] at hs
    rw [List.dropWhile_cons]
    split_ifs with h
    · exact allSep_dropWhile rest hs.2
    · rw [allSep_cons, Bool.and_eq_true]
      exact ⟨hs.1, hs.2⟩

theorem noAdj_dropWhile : ∀ l : List Nat, noAdj l = true →
    noAdj (l.dropWhile isWs) = true
  | [], _ => rfl
  | c :: rest, hn => by
    have parts := hn
    rw [noAdj_cons, Bool.and_eq_true] at parts
    rw [List.dropWhile_cons]
    split_ifs with h
    · exact noAdj_dropWhile rest parts.2
    · exact hn

theorem dropWhile_id (l : List Nat) (h : headIsWs l = false) :
    l.dropWhile isWs = l := by
  cases l with
  | nil => rfl
  | cons c rest =>
    simp only [headIsWs] at h
    rw [List.dropWhile_cons, if_neg (by simp [h])]

theorem trimRight_id : ∀ l : List Nat, lastNotWs l = true → trimRight l = l
  | [], _ => rfl
  | [c], h => by
    simp only [lastNotWs] at h
    simp only [trimRight]
    rw [Bool.not_eq_true'] at h
    rw [if_pos trivial, if_neg (by simp [h])]
  | c :: d :: rest, h => by
    have ih := trimRight_id (d :: rest) h
    rw [show trimRight (c :: d :: rest) =
      if trimRight (d :: rest) = [] then (if isWs c then [] else [c])
      else c :: trimRight (d :: rest) from rfl]
    rw [ih, if_neg (by simp)]

theorem sepChar_caseFold (c : Nat) (h : (!isWs c || c == 32) = true) :
    (!isWs (caseFold c) || caseFold c == 32) = true := by
  rw [Bool.or_eq_true] at h
  rcases h with h1 | h1
  · rw [Bool.or_eq_true]
    left
    rw [isWs_caseFold]
    exact h1
  · have hc : c = 32 := beq_iff_eq.mp h1
    subst hc
    decide

theorem allSep_map : ∀ l : List Nat, allSep l = true → allSep (l.map caseFold) = true
  | [], _ => rfl
  | c :: rest, hs => by
    rw [allSep_cons, Bool.and_eq_true] at hs
    simp only [List.map_cons]
    rw [allSep_cons, Bool.and_eq_true]
    exact ⟨sepChar_caseFold c hs.1, allSep_map rest hs.2⟩

theorem headIsWs_map : ∀ l : List Nat, headIsWs (l.map caseFold) = headIsWs l
  | [] => rfl
  | c :: _ => by simp [headIsWs, isWs_caseFold]

theorem noAdj_map : ∀ l : List Nat, noAdj (l.map caseFold) = noAdj l
  | [] => rfl
  | c :: rest => by
    simp only [List.map_cons]
    rw [noAdj_cons, noAdj_cons, isWs_caseFold, headIsWs_map, noAdj_map rest]

theorem lastNotWs_map : ∀ l : List Nat, lastNotWs (l.map caseFold) = lastNotWs l
  | [] => rfl
  | [c] => by simp [lastNotWs, isWs_caseFold]
  | c :: d :: rest => lastNotWs_map (d :: rest)

theorem map_caseFold_caseFold (l : List Nat) :
    (l.map caseFold).map caseFold = l.map caseFold := by
  rw [List.map_map]
  have h : caseFold ∘ caseFold = caseFold := funext caseFold_caseFold
  rw [h]

theorem squeeze_length_le : ∀ l : List Nat, (squeeze l).length ≤ l.length
  | [] => le_refl _
  | [c] => by
    simp only [squeeze]
    split_ifs <;> simp
  | c :: d :: rest => by
    have ih := squeeze_length_le (d :: rest)
    simp only [List.length_cons] at ih
    simp only [squeeze]
    split_ifs <;> simp only [List.length_cons] <;> omega

theorem trimRight_length_le : ∀ l : List Nat, (trimRight l).length ≤ l.length
  | [] => le_refl _
  | c :: rest => by
    have ih := trimRight_length_le rest
    simp only [trimRight]
    split_ifs <;> simp only [List.length_cons, List.length_nil] <;> omega

theorem dropWhile_length_le : ∀ l : List Nat, (l.dropWhile isWs).length ≤ l.length
  | [] => le_refl _
  | c :: rest => by
    have ih := dropWhile_length_le rest
    rw [List.dropWhile_cons]
    split_ifs <;> simp only [List.length_cons] <;> omega

theorem default_process_list_length_le (s : List Nat) :
    (default_process_list s).length ≤ s.length := by
  unfold default_process_list trim
  rw [List.length_map]
  calc (trimRight ((squeeze s).dropWhile isWs)).length
      ≤ ((squeeze s).dropWhile isWs).length := trimRight_length_le _
    _ ≤ (squeeze s).length := dropWhile_length_le _
    _ ≤ s.length := squeeze_length_le s

/-- C9: applying the canonicalization transform twice gives the same result
as applying it once — `normalize(normalize(s)) == normalize(s)` for every
character sequence `s`. -/
theorem default_process_list_idem (s : List Nat) :
    default_process_list (default_process_list s) = default_process_list s := by
  set u := default_process_list s with hu
  have hAllSep : allSep u = true := by
    rw [hu]
    unfold default_process_list trim
    exact allSep_map _ (allSep_trimRight _ (allSep_dropWhile _ (allSep_squeeze s)))
  have hNoAdj : noAdj u = true := by
    rw [hu]
    unfold default_process_list trim
    rw [noAdj_map]
    exact noAdj_trimRight _ (noAdj_dropWhile _ (noAdj_squeeze s))
  have hHead : headIsWs u = false := by
    rw [hu]
    unfold default_process_list trim
    rw [headIsWs_map]
    exact headIsWs_trimRight_false _ (headIsWs_dropWhile _)
  have hLast : lastNotWs u = true := by
    rw [hu]
    unfold default_process_list trim
    rw [lastNotWs_map]
    exact lastNotWs_trimRight _
  show default_process_list u = u
  unfold default_process_list trim
  rw [squeeze_id u hAllSep hNoAdj, dropWhile_id u hHead, trimRight_id u hLast]
  rw [hu]
  exact map_caseFold_caseFold (trim (squeeze s))

/- Claim theorems. -/

/-- C4: for every raw distance `d` in the 64-bit `size_t` range, result
marshaling returns the negative signal `-1` exactly when `d` is the maximum
representable unsigned value (the exceeds-max sentinel); otherwise it
returns `d` itself, a non-negative integer, so the signal is a distinguished
out-of-band value. -/
theorem dist_to_long_sentinel (d : Nat) (h : d < 2 ^ 64) :
    (dist_to_long d = -1 ↔ d = 2 ^ 64 - 1) ∧
    (d = 2 ^ 64 - 1 ∨ (dist_to_long d = (d : Int) ∧ 0 ≤ dist_to_long d)) := by
  unfold dist_to_long
  by_cases hd : d = 2 ^ 64 - 1
  · rw [if_pos hd]
    exact ⟨⟨fun _ => hd, fun _ => rfl⟩, Or.inl hd⟩
  · rw [if_neg hd]
    refine ⟨⟨fun hc => ?_, fun hc => absurd hc hd⟩, Or.inr ⟨rfl, by positivity⟩⟩
    exfalso
    omega

theorem dist_to_long_sentinel_witness :
    5 < 2 ^ 64 ∧
    ((dist_to_long 5 = -1 ↔ 5 = 2 ^ 64 - 1) ∧
      (5 = 2 ^ 64 - 1 ∨ (dist_to_long 5 = (5 : Int) ∧ 0 ≤ dist_to_long 5))) :=
  ⟨by decide, dist_to_long_sentinel 5 (by decide)⟩

/-- C6: for every supported host string, `convert_string` returns a borrowed
buffer — ownership flag cleared, data pointing at the host string's own
storage, length equal to the host element count — whose width tag is chosen
by three buckets: 1-byte host representation maps to the 8-bit tag, 2-byte
to the 16-bit tag, and anything else to the 32-bit tag. Instantiating at a
zero-length host string gives a valid buffer with `length = 0` and the
host's data pointer. -/
theorem convert_string_borrows (py : PyUnicodeObject) :
    (convert_string py).allocated = false ∧
    (convert_string py).data = py.data ∧
    (convert_string py).length = py.length ∧
    (convert_string py).kind =
      (if py.kind = PyUnicode_1BYTE_KIND then RAPIDFUZZ_UINT8
        else if py.kind = PyUnicode_2BYTE_KIND then RAPIDFUZZ_UINT16
        else RAPIDFUZZ_UINT32) :=
  ⟨rfl, rfl, rfl, rfl⟩

/-- C7: `process_dealloc_no_context` frees the allocation exactly when the
buffer is owned, is a no-op on a non-owned buffer, clears the ownership flag
and nulls the data pointer on the first release, and is idempotent — a
second release of the returned state changes nothing, so it can never
double-free. -/
theorem process_dealloc_release (m : Mem) (s : RapidFuzzString) :
    (process_dealloc_no_context m s).1.live =
      (if s.allocated then m.live.erase s.data else m.live) ∧
    (process_dealloc_no_context m s).2 =
      (if s.allocated then ⟨s.kind, false, 0, 0, 0⟩ else s) ∧
    (process_dealloc_no_context m s).1.contents = m.contents ∧
    process_dealloc_no_context (process_dealloc_no_context m s).1
      (process_dealloc_no_context m s).2 = process_dealloc_no_context m s := by
  cases hA : s.allocated <;>
    simp [process_dealloc_no_context, hA]

/-- C10: move-assigning a wrapper to itself (the `&other != this` guard
taken) is a no-op — the wrapped buffer, its ownership state and the
deallocation responsibility are unchanged, and no memory is released. -/
theorem move_assign_self_noop (m : Mem) (w : ProcStringWrapper) :
    ProcStringWrapper.moveAssign m w w true = (m, w, w) := rfl

/-- C8: for every pair of buffers whose width tags are among the five
supported tags, every heap and every argument pack, the two-level dispatch
returns exactly the wrapped generic algorithm applied to the two typed views
of the buffers in the original argument order — the outer and inner argument
swaps cancel. The result therefore depends on the buffers only through their
views, so two buffers holding the same code points at different widths yield
identical results. -/
theorem dispatch_original_order {A R : Type}
    (ratio_func : List Nat → List Nat → A → R) (m : Mem)
    (s1 s2 : RapidFuzzString) (args : A)
    (h1 : s1.kind < 5) (h2 : s2.kind < 5) :
    ratio_impl ratio_func m s1 s2 args =
      DispatchResult.ok
        (ratio_func (to_string_view (widthOfKind s1.kind) m s1)
          (to_string_view (widthOfKind s2.kind) m s2) args) := by
  have e1 : s1.kind = 0 ∨ s1.kind = 1 ∨ s1.kind = 2 ∨ s1.kind = 3 ∨ s1.kind = 4 := by
    omega
  have e2 : s2.kind = 0 ∨ s2.kind = 1 ∨ s2.kind = 2 ∨ s2.kind = 3 ∨ s2.kind = 4 := by
    omega
  rcases e1 with h | h | h | h | h <;> rcases e2 with g | g | g | g | g <;>
    simp [ratio_impl, ratio_impl_inner, widthOfKind, RAPIDFUZZ_UINT8,
      RAPIDFUZZ_UINT16, RAPIDFUZZ_UINT32, RAPIDFUZZ_UINT64, RAPIDFUZZ_INT64, h, g]

theorem dispatch_original_order_witness :
    strNarrow.kind < 5 ∧ strWide.kind < 5 ∧
    ratio_impl (fun a b n => (a, b, n)) memW strNarrow strWide 7 =
      DispatchResult.ok
        ((fun (a b : List Nat) (n : Nat) => (a, b, n))
          (to_string_view (widthOfKind strNarrow.kind) memW strNarrow)
          (to_string_view (widthOfKind strWide.kind) memW strWide) 7) :=
  ⟨by decide, by decide,
    dispatch_original_order (fun a b n => (a, b, n)) memW strNarrow strWide 7
      (by decide) (by decide)⟩

/-- C1: the dispatch entry points generated with a `default:` arm throw a
logic error on a width tag outside the five supported tags, but the
edit-operation trace does not — both `cpp_levenshtein_editops` switch levels
lack a `default:` case, so an out-of-range tag (here kind 5, in either
argument position) makes control flow off the end of a value-returning
function: undefined behaviour rather than the logic error the claim
requires. In range, the dispatch reaches the single concrete
instantiation. -/
theorem editops_dispatch_fault :
    cpp_levenshtein_editops (fun a b => (a, b)) memEmpty strBadKind strEmptyU8 =
      DispatchResult.undefinedBehavior ∧
    cpp_levenshtein_editops (fun a b => (a, b)) memEmpty strEmptyU8 strBadKind =
      DispatchResult.undefinedBehavior ∧
    ratio_impl (fun a b (_ : Unit) => (a, b)) memEmpty strBadKind strEmptyU8 () =
      DispatchResult.logicError ∧
    cpp_levenshtein_editops (fun a b => (a, b)) memEmpty strEmptyU8 strEmptyU8 =
      DispatchResult.ok ([], []) :=
  ⟨rfl, rfl, rfl, rfl⟩

/-- C2: move assignment does not hand the deallocation responsibility to the
destination. Starting from a default-constructed destination (`dealloc` not
set) and a source owning the live allocation at address 7 with its `dealloc`
set, after `d = std::move(s)` the destination's `dealloc` is still unset,
the source is disarmed, and destroying both wrappers leaves address 7 live —
the owned memory is leaked. The move constructor, by contrast, does copy the
`dealloc` member. -/
theorem move_assign_drops_dealloc :
    (ProcStringWrapper.moveAssign memLeak wrapDefault wrapOwner false).2.1.dealloc =
      false ∧
    (ProcStringWrapper.moveAssign memLeak wrapDefault wrapOwner false).2.2.dealloc =
      false ∧
    (ProcStringWrapper.destroy
      (ProcStringWrapper.destroy
        (ProcStringWrapper.moveAssign memLeak wrapDefault wrapOwner false).1
        (ProcStringWrapper.moveAssign memLeak wrapDefault wrapOwner false).2.1)
      (ProcStringWrapper.moveAssign memLeak wrapDefault wrapOwner false).2.2).live =
      [7] ∧
    ProcStringWrapper.moveConstruct wrapOwner =
      (⟨wrapOwner.str, true⟩, ⟨wrapOwner.str, false⟩) :=
  ⟨rfl, rfl, rfl, rfl⟩

/-- C3 (amended): for every non-owned input buffer, the Normalizer raises
the out-of-memory error exactly when the allocator fails at the requested
size — and that requested size is `length * element_size` computed in
wrapping 64-bit `size_t` arithmetic, with no explicit overflow check. -/
theorem default_process_alloc_behavior (elemSize : Nat) (mallocFail : Nat → Bool)
    (m : Mem) (s : RapidFuzzString) (hb : s.allocated = false) :
    (default_process_impl elemSize mallocFail m s =
        Except.error ProcError.badAlloc ↔
      mallocFail (s.length * elemSize % 2 ^ 64) = true) ∧
    allocRequestBytes s.length elemSize = s.length * elemSize % 2 ^ 64 := by
  refine ⟨?_, rfl⟩
  by_cases hmf : mallocFail (s.length * elemSize % 2 ^ 64) = true
  · simp [default_process_impl, allocRequestBytes, hb, hmf]
  · rw [Bool.not_eq_true] at hmf
    simp [default_process_impl, allocRequestBytes, hb, hmf]

theorem default_process_alloc_behavior_witness :
    strNarrow.allocated = false ∧
    ((default_process_impl 1 mallocNever memW strNarrow =
        Except.error ProcError.badAlloc ↔
      mallocNever (strNarrow.length * 1 % 2 ^ 64) = true) ∧
      allocRequestBytes strNarrow.length 1 = strNarrow.length * 1 % 2 ^ 64) :=
  ⟨rfl, default_process_alloc_behavior 1 mallocNever memW strNarrow rfl⟩

/-- C3 (counterexample): at a borrowed UINT32 buffer of length `2 ^ 62 + 1`
the product `length * sizeof(uint32_t)` overflows 64-bit `size_t` — the
requested allocation size wraps to 4 bytes — yet the Normalizer proceeds and
returns normally with an allocator that could never satisfy the true size:
it does not check the multiplication for overflow and does not report an
allocation failure. -/
theorem alloc_overflow_unchecked :
    2 ^ 64 ≤ strHuge.length * 4 ∧
    allocRequestBytes strHuge.length 4 = 4 ∧
    mallocCap (strHuge.length * 4) = true ∧
    exceptOk (default_process_impl 4 mallocCap memEmpty strHuge) = true :=
  ⟨by decide, by decide, by decide, rfl⟩

/-- C5 (amended): for every non-owned (borrowed) input buffer at a valid
address, when the allocator satisfies the request the Normalizer returns an
owned buffer of the same width tag and at most the same length, placed at a
freshly allocated address distinct from the source's, holding the transform
of the copied source view; the source's storage is unchanged and stays
unchanged under any later mutation of the normalized copy. An already-owned
input buffer, by contrast, is rewritten in place (see the counterexample
theorem). -/
theorem default_process_fresh_copy (elemSize : Nat) (mallocFail : Nat → Bool)
    (m : Mem) (s : RapidFuzzString) (bs : List Nat)
    (hb : s.allocated = false) (hv : s.data < m.nextFree)
    (hm : mallocFail (allocRequestBytes s.length elemSize) = false) :
    exceptOk (default_process_impl elemSize mallocFail m s) = true ∧
    (resStr (default_process_impl elemSize mallocFail m s)).kind = s.kind ∧
    (resStr (default_process_impl elemSize mallocFail m s)).allocated = true ∧
    (resStr (default_process_impl elemSize mallocFail m s)).length ≤ s.length ∧
    (resStr (default_process_impl elemSize mallocFail m s)).data = m.nextFree ∧
    (resStr (default_process_impl elemSize mallocFail m s)).data ≠ s.data ∧
    (resMem (default_process_impl elemSize mallocFail m s)).contents s.data =
      m.contents s.data ∧
    (resMem (default_process_impl elemSize mallocFail m s)).contents
        (resStr (default_process_impl elemSize mallocFail m s)).data =
      encode elemSize (default_process_list (to_string_view elemSize m s)) ++
        (encode elemSize (to_string_view elemSize m s)).drop
          (encode elemSize (default_process_list (to_string_view elemSize m s))).length ∧
    ((resMem (default_process_impl elemSize mallocFail m s)).write
        (resStr (default_process_impl elemSize mallocFail m s)).data bs).contents
      s.data = m.contents s.data := by
  have hne : s.data ≠ m.nextFree := by omega
  simp only [default_process_impl, hb, hm, Bool.not_false, Bool.false_eq_true,
    eq_self_iff_true, if_true, if_false, exceptOk, resStr, resMem, Mem.write,
    to_string_view, ne_eq, hne]
  refine ⟨trivial, trivial, trivial, ?_, trivial, by omega, trivial, trivial,
    trivial⟩
  exact le_trans (default_process_list_length_le _) (List.length_take_le _ _)

theorem default_process_fresh_copy_witness :
    strNarrow.allocated = false ∧
    strNarrow.data < memW.nextFree ∧
    mallocNever (allocRequestBytes strNarrow.length 1) = false ∧
    (exceptOk (default_process_impl 1 mallocNever memW strNarrow) = true ∧
      (resStr (default_process_impl 1 mallocNever memW strNarrow)).kind =
        strNarrow.kind ∧
      (resStr (default_process_impl 1 mallocNever memW strNarrow)).allocated =
        true ∧
      (resStr (default_process_impl 1 mallocNever memW strNarrow)).length ≤
        strNarrow.length ∧
      (resStr (default_process_impl 1 mallocNever memW strNarrow)).data =
        memW.nextFree ∧
      (resStr (default_process_impl 1 mallocNever memW strNarrow)).data ≠
        strNarrow.data ∧
      (resMem (default_process_impl 1 mallocNever memW strNarrow)).contents
          strNarrow.data =
        memW.contents strNarrow.data ∧
      (resMem (default_process_impl 1 mallocNever memW strNarrow)).contents
          (resStr (default_process_impl 1 mallocNever memW strNarrow)).data =
        encode 1 (default_process_list (to_string_view 1 memW strNarrow)) ++
          (encode 1 (to_string_view 1 memW strNarrow)).drop
            (encode 1 (default_process_list (to_string_view 1 memW strNarrow))).length ∧
      ((resMem (default_process_impl 1 mallocNever memW strNarrow)).write
          (resStr (default_process_impl 1 mallocNever memW strNarrow)).data
          [120]).contents strNarrow.data =
        memW.contents strNarrow.data) :=
  ⟨rfl, by decide, rfl,
    default_process_fresh_copy 1 mallocNever memW strNarrow [120] rfl (by decide)
      rfl⟩

/-- C5 (counterexample): on an input buffer that is already owned
(`allocated = true`, length 2 at the live address 5) the Normalizer performs
no new allocation — the returned buffer's data pointer equals the source's
and the allocation counter is unchanged — so the result is not independent
of the source: writing the byte 120 through the normalized copy changes the
contents stored at the source's address from `[97, 98]` to `[120]`. -/
theorem normalize_aliases_owned_input :
    strOwned.allocated = true ∧
    (resStr (default_process_impl 1 mallocNever memC5 strOwned)).data =
      strOwned.data ∧
    (resMem (default_process_impl 1 mallocNever memC5 strOwned)).nextFree =
      memC5.nextFree ∧
    memC5.contents strOwned.data = [97, 98] ∧
    ((resMem (default_process_impl 1 mallocNever memC5 strOwned)).write
        (resStr (default_process_impl 1 mallocNever memC5 strOwned)).data
        [120]).contents strOwned.data = [120] :=
  ⟨rfl, rfl, rfl, rfl, rfl⟩
